import Mathlib

/-!
Verification of the RTF test-harness core (`tests/test_runner.py`):
`RTFValidator.is_valid_rtf`, `RTFValidator.extract_visible_text`,
`TextNormalizer.normalize`, `TextNormalizer.assert_normalized_equal`.

Python strings are modelled as `List Char` (one element per code point).
Python floats (`tolerance`, `similarity`) are modelled as exact rationals;
the arithmetic performed by the code (`len(a & b) / len(b)` compared with
`tolerance`) is the same formula over ℚ.  A raised `AssertionError` is
modelled as a dedicated constructor carrying the diagnostic values that the
code formats into the message (computed similarity, tolerance threshold,
expected word count, matched word count).

Note on fidelity of `normalize` (lines 176-184 of the source): the file is
encoding-mangled.  Line 181 replaces the em dash U+2014 and the en dash
U+2013 by "-".  Line 182 reads `text.replace(""", '"').replace(""", '"')`
with plain ASCII quotes, which Python parses as ONE call
`text.replace(STR, '"')` whose first argument is the triple-quoted string
STR = `, '"').replace(` (15 characters).  Line 183 reads
`text.replace("'", "'").replace("'", "'")`, two identity replacements.
The embedding reproduces exactly that behaviour.
-/

set_option linter.unusedVariables false

namespace TR

/-- Python strings as lists of code points. -/
abbrev Str := List Char

/-- Python's whitespace class for `str.strip` / regex `\s` (ASCII part:
space, tab, newline, carriage return, vertical tab, form feed). -/
def isSpace (c : Char) : Bool :=
  c == ' ' || c == '\t' || c == '\n' || c == '\r' || c == '\x0b' || c == '\x0c'

/-- Characters matched by the character class `[a-z0-9]` of the control-word
regex in `extract_visible_text`. -/
def isCW (c : Char) : Bool :=
  (decide (97 ≤ c.toNat) && decide (c.toNat ≤ 122)) ||
  (decide (48 ≤ c.toNat) && decide (c.toNat ≤ 57))

/-- Lowercase ASCII letter `[a-z]`. -/
def isLowerAlpha (c : Char) : Bool :=
  decide (97 ≤ c.toNat) && decide (c.toNat ≤ 122)

/-- ASCII digit `[0-9]`. -/
def isDigitC (c : Char) : Bool :=
  decide (48 ≤ c.toNat) && decide (c.toNat ≤ 57)

/-- Model of `str.lower()` on one character (ASCII range). -/
def pyLower (c : Char) : Char :=
  if 65 ≤ c.toNat ∧ c.toNat ≤ 90 then Char.ofNat (c.toNat + 32) else c

/-- Left part of `str.strip()`. -/
def lstrip (s : Str) : Str := s.dropWhile isSpace

/-- Right part of `str.strip()`. -/
def rstrip (s : Str) : Str := (s.reverse.dropWhile isSpace).reverse

/-- Model of `str.strip()`: drop leading and trailing whitespace. -/
def pyStrip (s : Str) : Str := rstrip (lstrip s)

/-- Worker for `re.sub(r"\s+", " ", ·)`: the flag is true while inside a
whitespace run whose single replacement space was already emitted. -/
def squeezeAux : Bool → Str → Str
  | _, [] => []
  | inRun, c :: cs =>
    if isSpace c then
      if inRun then squeezeAux true cs else ' ' :: squeezeAux true cs
    else c :: squeezeAux false cs

/-- Model of `re.sub(r"\s+", " ", s)`: every maximal whitespace run becomes one space. -/
def squeeze (s : Str) : Str := squeezeAux false s

/-- Worker for `str.split()` with an accumulator holding the current word
reversed. -/
def splitWSAux : Str → Str → List Str
  | acc, [] => if acc.isEmpty then [] else [acc.reverse]
  | acc, c :: cs =>
    if isSpace c then
      if acc.isEmpty then splitWSAux [] cs else acc.reverse :: splitWSAux [] cs
    else splitWSAux (c :: acc) cs

/-- Python `str.split()` (no argument): split on whitespace runs, no empty
words. -/
def splitWS (s : Str) : List Str := splitWSAux [] s

/-- Prefix test, written out, used for `startswith` and substring search. -/
def isPrefixList : Str → Str → Bool
  | [], _ => true
  | _ :: _, [] => false
  | p :: ps, c :: cs => p == c && isPrefixList ps cs

/-- Python's `needle in hay` substring test. -/
def containsSub : Str → Str → Bool
  | [], needle => needle.isEmpty
  | c :: cs, needle => isPrefixList needle (c :: cs) || containsSub cs needle

/-- Last character of a string, for `str.endswith` with a 1-char suffix. -/
def lastChar : Str → Option Char
  | [] => none
  | [c] => some c
  | _ :: c :: cs => lastChar (c :: cs)

/-- The brace-balance loop of `is_valid_rtf`: running depth starting from
`d`; `none` reports that the depth went negative (early `return`). -/
def braceScan : Str → Int → Option Int
  | [], d => some d
  | c :: cs, d =>
    let d2 : Int := if c == '\x7b' then d + 1 else if c == '\x7d' then d - 1 else d
    if d2 < 0 then none else braceScan cs d2

/-- The literal header marker `{\rtf`. -/
def rtfHeader : Str := "\x7b\\rtf".toList

/-- The literal marker `\ansi`. -/
def ansiM : Str := "\\ansi".toList

/-- The literal marker `\mac`. -/
def macM : Str := "\\mac".toList

/-- The literal marker `\pc`. -/
def pcM : Str := "\\pc".toList

/-- Model of `RTFValidator.is_valid_rtf` (lines 47-79): returns `(is_valid, message)`. -/
def is_valid_rtf (content : Str) : Bool × String :=
  if pyStrip content = [] then (false, "Empty content")
  else if isPrefixList rtfHeader (pyStrip content) = false then
    (false, "Missing RTF header \x7b\\rtf")
  else if lastChar (pyStrip content) ≠ some '\x7d' then
    (false, "Missing closing brace \x7d")
  else
    match braceScan content 0 with
    | none => (false, "Unbalanced braces (more closing than opening)")
    | some d =>
      if d ≠ 0 then (false, "Unbalanced braces (difference: " ++ toString d ++ ")")
      else if containsSub content ansiM = false ∧ containsSub content macM = false ∧
          containsSub content pcM = false then
        (false, "Missing character set declaration")
      else (true, "Valid RTF")

/-- Worker for Python `str.replace(old, new)` with non-empty `old`: the
`Nat` argument counts characters of an already-recognized occurrence still
to be skipped. -/
def rgoAux (old new : Str) : Nat → Str → Str
  | _, [] => []
  | k + 1, _ :: cs => rgoAux old new k cs
  | 0, c :: cs =>
    if isPrefixList old (c :: cs) then
      new ++ rgoAux old new (old.length - 1) cs
    else c :: rgoAux old new 0 cs

/-- Python `s.replace(old, new)`: replace the leftmost, non-overlapping
occurrences of `old`, scanning resumes after each replaced occurrence. -/
def pyReplace (old new s : Str) : Str := rgoAux old new 0 s

/-- Em dash U+2014, first argument of the first replace on line 181. -/
def emDash : Char := '\u2014'

/-- En dash U+2013, first argument of the second replace on line 181. -/
def enDash : Char := '\u2013'

/-- The 15-character string that line 182 actually replaces (the
triple-quoted string produced by the encoding-mangled source). -/
def pStr : Str := ", '\"').replace(".toList

/-- Model of `TextNormalizer.normalize` (lines 169-184), faithful to the mangled
source: lowercase; collapse whitespace and strip; replace em and en dash by
"-"; replace the accidental literal `pStr` by a double quote; two identity
replacements of the ASCII apostrophe. -/
def normalize (text : Str) : Str :=
  let t1 := text.map pyLower
  let t2 := pyStrip (squeeze t1)
  let t3 := pyReplace [enDash] ['-'] (pyReplace [emDash] ['-'] t2)
  let t4 := pyReplace pStr ['"'] t3
  let t5 := pyReplace ['\''] ['\''] (pyReplace ['\''] ['\''] t4)
  t5

/-- Outcome of `assert_normalized_equal`: a returned boolean, or a raised
`AssertionError` carrying the values the code formats into its message. -/
inductive CmpResult where
  | ret (b : Bool)
  | toleranceError (similarity tolerance : ℚ) (expectedCount matchedCount : ℕ)
deriving DecidableEq, Repr

/-- The local `actual_words` / `expected_words` of
`assert_normalized_equal`: `set(normalize(text).split())`. -/
def wordSet (s : Str) : Finset Str := (splitWS (normalize s)).toFinset

/-- The local `similarity` of `assert_normalized_equal`:
`matching / len(expected_words)` over the word sets. -/
def simScore (actual expected : Str) : ℚ :=
  ((wordSet actual ∩ wordSet expected).card : ℚ) / ((wordSet expected).card : ℚ)

/-- Model of `TextNormalizer.assert_normalized_equal` (lines 187-217); the source's
local variables `actual_words`, `expected_words`, `matching`, `similarity`
are the helper functions `wordSet` and `simScore`. -/
def assert_normalized_equal (actual expected : Str) (tolerance : ℚ) : CmpResult :=
  if containsSub (normalize actual) (normalize expected) then CmpResult.ret true
  else if wordSet expected = ∅ then CmpResult.ret false
  else if simScore actual expected < tolerance then
    CmpResult.toleranceError (simScore actual expected) tolerance
      (wordSet expected).card ((wordSet actual ∩ wordSet expected).card)
  else CmpResult.ret true

/-- Model of `re.sub` on the class of the two braces, acting on one character. -/
def braceToSpace (c : Char) : Char :=
  if c == '\x7b' || c == '\x7d' then ' ' else c

/-- Worker for `re.sub(r"\\[a-z0-9]+\d*\s?", " ", ·)`.  Since `[a-z0-9]+` is
greedy and subsumes `\d`, the pattern matches a backslash, a maximal
non-empty `[a-z0-9]` run, then one optional whitespace character; the whole
match is replaced by one space (emitted when the match starts).  The flag is
true while consuming the tail of a recognized match. -/
def rtfSubGo : Bool → Str → Str
  | _, [] => []
  | mode, [c] =>
    if mode && isCW c then []
    else if mode && isSpace c then []
    else if c == '\\' then ['\\']
    else [c]
  | mode, c :: d :: ds =>
    if mode && isCW c then rtfSubGo true (d :: ds)
    else if mode && isSpace c then rtfSubGo false (d :: ds)
    else if c == '\\' then
      if isCW d then ' ' :: rtfSubGo true ds else '\\' :: rtfSubGo false (d :: ds)
    else c :: rtfSubGo false (d :: ds)

/-- Model of `RTFValidator.extract_visible_text` (lines 82-90): control-word
substitution, then braces to spaces, then whitespace collapse and strip. -/
def extract_visible_text (s : Str) : Str :=
  pyStrip (squeeze ((rtfSubGo false s).map braceToSpace))

/-- The spec's description of the control-word token of
`extract_visible_text`, written from the claim's words: a backslash
followed by one or more lowercase letters, optionally followed by digits,
optionally followed by a single trailing space, replaced by one space.
Mode 1: consuming letters, mode 2: consuming digits, mode 0: outside. -/
def claimedGo : Nat → Str → Str
  | _, [] => []
  | mode, [c] =>
    if (mode == 1) && isLowerAlpha c then []
    else if (mode == 1 || mode == 2) && isDigitC c then []
    else if (mode == 1 || mode == 2) && (c == ' ') then []
    else if c == '\\' then ['\\']
    else [c]
  | mode, c :: d :: ds =>
    if (mode == 1) && isLowerAlpha c then claimedGo 1 (d :: ds)
    else if (mode == 1 || mode == 2) && isDigitC c then claimedGo 2 (d :: ds)
    else if (mode == 1 || mode == 2) && (c == ' ') then claimedGo 0 (d :: ds)
    else if c == '\\' then
      if isLowerAlpha d then ' ' :: claimedGo 1 ds else '\\' :: claimedGo 0 (d :: ds)
    else c :: claimedGo 0 (d :: ds)

/-- The extraction pipeline exactly as the claim describes it (claimed
token class `[a-z]+[0-9]*` with one optional trailing space). -/
def claimedExtract (s : Str) : Str :=
  pyStrip (squeeze ((claimedGo 0 s).map braceToSpace))

/-- Remove one leading whitespace character if present (the `\s?` of the
control-word pattern). -/
def dropOneSpace : Str → Str
  | [] => []
  | c :: cs => if isSpace c then cs else c :: cs

/-- Declarative fuel-based form of the control-word substitution with the
amended token class: a backslash followed by a non-empty maximal `[a-z0-9]`
run, then one optional whitespace character, is replaced by one space. -/
def amendedSubF : Nat → Str → Str
  | 0, s => s
  | _ + 1, [] => []
  | fuel + 1, c :: cs =>
    if c = '\\' ∧ cs.takeWhile isCW ≠ [] then
      ' ' :: amendedSubF fuel (dropOneSpace (cs.dropWhile isCW))
    else c :: amendedSubF fuel cs

/-- The amended token substitution on a whole string. -/
def amendedSub (s : Str) : Str := amendedSubF s.length s

/-! ## Helper lemmas -/

/-- Note `containsSub` always succeeds on the empty needle (Python: `"" in s`). -/
lemma containsSub_nil (hay : Str) : containsSub hay [] = true := by
  cases hay <;> simp [containsSub, isPrefixList, List.isEmpty]

/-- Note `splitWSAux` with a non-empty accumulator never returns no words. -/
lemma splitWSAux_ne_nil : ∀ (s acc : Str), acc ≠ [] → splitWSAux acc s ≠ [] := by
  intro s
  induction s with
  | nil =>
    intro acc h
    cases acc with
    | nil => exact absurd rfl h
    | cons x xs => simp [splitWSAux]
  | cons c cs ih =>
    intro acc h
    cases acc with
    | nil => exact absurd rfl h
    | cons x xs =>
      by_cases hc : isSpace c
      · simp [splitWSAux, hc]
      · simpa [splitWSAux, hc] using ih (c :: x :: xs) (by simp)

/-- If `str.split()` returns no words, every character is whitespace. -/
lemma splitWS_nil_space : ∀ s : Str, splitWS s = [] → ∀ c ∈ s, isSpace c = true := by
  intro s
  induction s with
  | nil => intro _ c hc; cases hc
  | cons c cs ih =>
    intro h d hd
    by_cases hc : isSpace c
    · have h2 : splitWS cs = [] := by simpa [splitWS, splitWSAux, hc] using h
      rcases List.mem_cons.mp hd with rfl | hd2
      · exact hc
      · exact ih h2 d hd2
    · exfalso
      have : splitWSAux [c] cs ≠ [] := splitWSAux_ne_nil cs [c] (by simp)
      exact this (by simpa [splitWS, splitWSAux, hc] using h)

/-- The head of a non-empty `dropWhile` residue falsifies the predicate. -/
lemma dropWhile_head_eq_false (p : Char → Bool) :
    ∀ (u : Str) (x : Char) (xs : Str), u.dropWhile p = x :: xs → p x = false := by
  intro u
  induction u with
  | nil => intro x xs h; simp [List.dropWhile] at h
  | cons c cs ih =>
    intro x xs h
    rw [List.dropWhile_cons] at h
    by_cases hc : p c
    · exact ih x xs (by rwa [if_pos hc] at h)
    · rw [if_neg hc] at h
      injection h with h1 _
      subst h1
      simpa using hc

/-- A stripped string consisting only of whitespace is empty. -/
lemma pyStrip_only_space_nil (s : Str)
    (h : ∀ c ∈ pyStrip s, isSpace c = true) : pyStrip s = [] := by
  unfold pyStrip rstrip at h ⊢
  cases hv : (lstrip s).reverse.dropWhile isSpace with
  | nil => simp [hv]
  | cons x xs =>
    exfalso
    have hx : isSpace x = false := dropWhile_head_eq_false isSpace _ x xs hv
    have hmem : x ∈ ((lstrip s).reverse.dropWhile isSpace).reverse := by
      rw [hv]; simp
    rw [h x hmem] at hx
    exact Bool.noConfusion hx

/-- If a replacement whose inserted text starts with a non-whitespace
character produces an all-whitespace result, no occurrence was replaced at
all: the result is the input, itself all-whitespace. -/
lemma rgoAux_only_space (old : Str) (n : Char) (ns : Str) (hn : isSpace n = false) :
    ∀ s : Str, (∀ c ∈ rgoAux old (n :: ns) 0 s, isSpace c = true) →
      rgoAux old (n :: ns) 0 s = s ∧ ∀ c ∈ s, isSpace c = true := by
  intro s
  induction s with
  | nil => exact fun _ => ⟨rfl, by simp⟩
  | cons c cs ih =>
    intro h
    by_cases hp : isPrefixList old (c :: cs) = true
    · exfalso
      have hmem : n ∈ rgoAux old (n :: ns) 0 (c :: cs) := by
        simp [rgoAux, hp]
      rw [h n hmem] at hn
      exact Bool.noConfusion hn
    · have heq : rgoAux old (n :: ns) 0 (c :: cs) = c :: rgoAux old (n :: ns) 0 cs := by
        simp [rgoAux, hp]
      rw [heq] at h
      obtain ⟨h1, h2⟩ := ih fun d hd => h d (List.mem_cons_of_mem c hd)
      refine ⟨by rw [heq, h1], fun d hd => ?_⟩
      rcases List.mem_cons.mp hd with rfl | hd2
      · exact h d (List.mem_cons_self d _)
      · exact h2 d hd2

/-- Wrapper of `rgoAux_only_space` for `pyReplace`. -/
lemma pyReplace_only_space (old : Str) (n : Char) (ns : Str) (hn : isSpace n = false)
    (s : Str) (h : ∀ c ∈ pyReplace old (n :: ns) s, isSpace c = true) :
    pyReplace old (n :: ns) s = s ∧ ∀ c ∈ s, isSpace c = true :=
  rgoAux_only_space old n ns hn s h

/-- A `normalize` result consisting only of whitespace is empty. -/
lemma normalize_only_space_nil (e : Str)
    (h : ∀ c ∈ normalize e, isSpace c = true) : normalize e = [] := by
  have huf : normalize e = pyReplace ['\''] ['\'']
      (pyReplace ['\''] ['\''] (pyReplace pStr ['"']
      (pyReplace [enDash] ['-'] (pyReplace [emDash] ['-']
      (pyStrip (squeeze (e.map pyLower))))))) := rfl
  rw [huf] at h
  have h5 := pyReplace_only_space ['\''] '\'' [] rfl _ h
  have h4 := pyReplace_only_space ['\''] '\'' [] rfl _ h5.2
  have h3 := pyReplace_only_space pStr '"' [] rfl _ h4.2
  have h2 := pyReplace_only_space [enDash] '-' [] rfl _ h3.2
  have h1 := pyReplace_only_space [emDash] '-' [] rfl _ h2.2
  have hz : pyStrip (squeeze (e.map pyLower)) = [] := pyStrip_only_space_nil _ h1.2
  rw [huf, h5.1, h4.1, h3.1, h2.1, h1.1, hz]

/-- An empty expected word set forces the normalized expected string to be
empty. -/
lemma ew_empty_normalize_nil (e : Str)
    (h : (splitWS (normalize e)).toFinset = (∅ : Finset Str)) : normalize e = [] := by
  have h0 : splitWS (normalize e) = [] := (List.toFinset_eq_empty_iff _).mp h
  exact normalize_only_space_nil e (splitWS_nil_space _ h0)

/-! ## Claim theorems -/

/-- C9: every string that is empty after trimming is rejected with reason
"Empty content", and this gate precedes all others (no other property of
the string is consulted); in particular `""` and `"   "`. -/
theorem c9_empty_content :
    (∀ s : Str, pyStrip s = [] → is_valid_rtf s = (false, "Empty content"))
    ∧ is_valid_rtf "".toList = (false, "Empty content")
    ∧ is_valid_rtf "   ".toList = (false, "Empty content") := by
  refine ⟨fun s h => ?_, by decide, by decide⟩
  unfold is_valid_rtf
  rw [if_pos h]

/-- Witness for C9 at the concrete input `" "`. -/
theorem c9_empty_content_witness :
    is_valid_rtf [' '] = (false, "Empty content") :=
  c9_empty_content.1 [' '] (by decide)

/-- C1: a string that is non-empty after trimming, starts (trimmed) with
`{\rtf`, ends (trimmed) with `}`, whose brace scan never goes negative and
ends at depth 0, and which contains `\ansi` (or `\mac` or `\pc`), validates
as `(true, "Valid RTF")`. -/
theorem c1_valid_rtf (s : Str)
    (h1 : pyStrip s ≠ [])
    (h2 : isPrefixList rtfHeader (pyStrip s) = true)
    (h3 : lastChar (pyStrip s) = some '\x7d')
    (h4 : braceScan s 0 = some 0)
    (h5 : containsSub s ansiM = true ∨ containsSub s macM = true ∨
      containsSub s pcM = true) :
    is_valid_rtf s = (true, "Valid RTF") := by
  unfold is_valid_rtf
  rw [h4]
  rcases h5 with h5 | h5 | h5 <;> simp [h1, h2, h3, h5]

/-- Witness for C1 at the concrete input `{\rtf1\ansi test}`. -/
theorem c1_valid_rtf_witness :
    is_valid_rtf "\x7b\\rtf1\\ansi test\x7d".toList = (true, "Valid RTF") :=
  c1_valid_rtf _ (by decide) (by decide) (by decide) (by decide) (Or.inl (by decide))

/-- C5: once the emptiness/header/footer gates pass, a brace scan that goes
negative yields reason "Unbalanced braces (more closing than opening)"; a
scan ending at a nonzero depth `d` yields a reason carrying the signed
count `d`; concretely for `{\rtf1\ansi {}} }` and `{\rtf1\ansi {{} }`. -/
theorem c5_brace_imbalance :
    (∀ s : Str, pyStrip s ≠ [] → isPrefixList rtfHeader (pyStrip s) = true →
      lastChar (pyStrip s) = some '\x7d' → braceScan s 0 = none →
      is_valid_rtf s = (false, "Unbalanced braces (more closing than opening)"))
    ∧ (∀ (s : Str) (d : Int), pyStrip s ≠ [] →
      isPrefixList rtfHeader (pyStrip s) = true →
      lastChar (pyStrip s) = some '\x7d' → braceScan s 0 = some d → d ≠ 0 →
      is_valid_rtf s = (false, "Unbalanced braces (difference: " ++ toString d ++ ")"))
    ∧ is_valid_rtf "\x7b\\rtf1\\ansi \x7b\x7d\x7d \x7d".toList =
        (false, "Unbalanced braces (more closing than opening)")
    ∧ is_valid_rtf "\x7b\\rtf1\\ansi \x7b\x7b\x7d \x7d".toList =
        (false, "Unbalanced braces (difference: 1)") := by
  refine ⟨fun s h1 h2 h3 h4 => ?_, fun s d h1 h2 h3 h4 h5 => ?_, by decide, by decide⟩
  · unfold is_valid_rtf
    rw [h4]
    simp [h1, h2, h3]
  · unfold is_valid_rtf
    rw [h4]
    simp [h1, h2, h3, h5]

/-- Witness for C5 at the concrete input `{\rtf1\ansi {}} }`. -/
theorem c5_brace_imbalance_witness :
    is_valid_rtf "\x7b\\rtf1\\ansi \x7b\x7d\x7d \x7d".toList =
      (false, "Unbalanced braces (more closing than opening)") :=
  c5_brace_imbalance.1 _ (by decide) (by decide) (by decide) (by decide)

/-- C3: if the normalized expected string occurs as a literal substring of
the normalized actual string, the comparison returns `True` immediately,
for every tolerance, and raises nothing. -/
theorem c3_substring_fast_path (a e : Str) (t : ℚ)
    (h : containsSub (normalize a) (normalize e) = true) :
    assert_normalized_equal a e t = CmpResult.ret true := by
  unfold assert_normalized_equal
  simp [h]

/-- Witness for C3: expected text literally contained in the actual text,
with an extreme tolerance. -/
theorem c3_substring_fast_path_witness :
    containsSub (normalize "The Quarterly report is excellent".toList)
      (normalize "quarterly report".toList) = true ∧
    assert_normalized_equal "The Quarterly report is excellent".toList
      "quarterly report".toList (99/100) = CmpResult.ret true :=
  ⟨by decide, c3_substring_fast_path _ _ _ (by decide)⟩

/-- C2: in the word-set branch (no substring hit, non-empty expected word
set), the comparison computes `similarity = |actual ∩ expected| / |expected|`
over the word sets of the normalized strings, raises the assertion error
carrying exactly that similarity, the tolerance threshold, the expected
word count and the matched word count when `similarity < tolerance`, and
returns `True` otherwise. -/
theorem c2_similarity_branch (a e : Str) (t : ℚ)
    (hsub : containsSub (normalize a) (normalize e) = false)
    (hne : wordSet e ≠ (∅ : Finset Str)) :
    (simScore a e < t →
      assert_normalized_equal a e t = CmpResult.toleranceError (simScore a e) t
        (wordSet e).card ((wordSet a ∩ wordSet e).card))
    ∧ (¬ simScore a e < t → assert_normalized_equal a e t = CmpResult.ret true) := by
  unfold assert_normalized_equal
  rw [hsub]
  constructor
  · intro hlt
    simp only [Bool.false_eq_true, if_false, if_neg hne, if_pos hlt]
  · intro hge
    simp only [Bool.false_eq_true, if_false, if_neg hne, if_neg hge]

/-- Witness for C2: disjoint vocabularies, similarity 0 < 0.85, error
carrying similarity 0, tolerance 85/100, 3 expected words, 0 matched. -/
theorem c2_similarity_branch_witness :
    assert_normalized_equal "completely unrelated text".toList
      "quarterly report excellent".toList (85/100) =
      CmpResult.toleranceError 0 (85/100) 3 0 := by
  have hsub : containsSub (normalize "completely unrelated text".toList)
      (normalize "quarterly report excellent".toList) = false := by decide
  have hne : wordSet "quarterly report excellent".toList ≠ (∅ : Finset Str) := by decide
  have hcard : (wordSet "quarterly report excellent".toList).card = 3 := by decide
  have hint : (wordSet "completely unrelated text".toList ∩
      wordSet "quarterly report excellent".toList).card = 0 := by decide
  have hsim : simScore "completely unrelated text".toList
      "quarterly report excellent".toList = 0 := by
    unfold simScore
    rw [hint, hcard]
    norm_num
  have h := (c2_similarity_branch "completely unrelated text".toList
    "quarterly report excellent".toList (85/100) hsub hne).1
  rw [hsim, hcard, hint] at h
  exact h (by norm_num)

/-- C4 counterexample: with an expected string whose word set is empty
(here `""`), `assert_normalized_equal` does NOT return the `False` verdict
the claim requires: it returns `True` through the substring fast path. -/
theorem c4_counterexample :
    wordSet "".toList = (∅ : Finset Str) ∧
    assert_normalized_equal "x".toList "".toList (85/100) = CmpResult.ret true ∧
    assert_normalized_equal "x".toList "".toList (85/100) ≠ CmpResult.ret false := by
  refine ⟨by decide, ?_, ?_⟩
  · have h : containsSub (normalize "x".toList) (normalize "".toList) = true := by decide
    unfold assert_normalized_equal
    rw [h]
    simp
  · have h : containsSub (normalize "x".toList) (normalize "".toList) = true := by decide
    unfold assert_normalized_equal
    rw [h]
    simp

/-- C4 amended: when the expected word set is empty the normalized expected
string is empty, so the substring fast path fires first and the function
returns `True`; the `False`-returning branch of the code is unreachable. -/
theorem c4_amended (a e : Str) (t : ℚ)
    (h : wordSet e = (∅ : Finset Str)) :
    assert_normalized_equal a e t = CmpResult.ret true := by
  have h1 : normalize e = [] := ew_empty_normalize_nil e h
  have h2 : containsSub (normalize a) (normalize e) = true := by
    rw [h1]; exact containsSub_nil _
  unfold assert_normalized_equal
  rw [h2]
  simp

/-- Witness for C4 amended, at actual `"x"`, expected `" "`, tolerance
85/100. -/
theorem c4_amended_witness :
    wordSet " ".toList = (∅ : Finset Str) ∧
    assert_normalized_equal "x".toList " ".toList (85/100) = CmpResult.ret true :=
  ⟨by decide, c4_amended _ _ _ (by decide)⟩

/-- C10: the comparison never returns `False`: every run either returns
`True` or raises the similarity error, because an empty expected word set
implies the normalized expected string is empty, which always satisfies
the substring fast path. -/
theorem c10_never_returns_false (a e : Str) (t : ℚ) :
    assert_normalized_equal a e t ≠ CmpResult.ret false := by
  by_cases hc : containsSub (normalize a) (normalize e) = true
  · unfold assert_normalized_equal
    rw [hc]
    simp
  · have hcf : containsSub (normalize a) (normalize e) = false := by
      simpa using hc
    by_cases he : wordSet e = (∅ : Finset Str)
    · exfalso
      have h1 : normalize e = [] := ew_empty_normalize_nil e he
      rw [h1, containsSub_nil] at hcf
      exact Bool.noConfusion hcf
    · unfold assert_normalized_equal
      rw [hcf]
      simp only [Bool.false_eq_true, if_false, if_neg he]
      split
      · intro hne
        exact CmpResult.noConfusion hne
      · intro hne
        have := CmpResult.ret.inj hne
        exact Bool.noConfusion this

/-- C6 (code bug): the code does NOT canonicalize smart quotation marks.
On an input containing the smart double quotes U+201C/U+201D and the smart
apostrophe U+2019, `normalize` is the identity: the smart characters
survive in the output, where the claim requires them to become `"` and
`'`.  (Cause: the replacement lines of the source are encoding-mangled;
the double-quote line replaces the accidental literal `pStr` and the
single-quote line replaces `'` by itself.) -/
theorem c6_smart_quotes_not_replaced :
    normalize "“hi” don’t".toList = "“hi” don’t".toList ∧
    '“' ∈ normalize "“hi” don’t".toList ∧
    '’' ∈ normalize "“hi” don’t".toList ∧
    ('"' ∈ normalize "“hi” don’t".toList → False) := by
  refine ⟨by decide, by decide, by decide, by decide⟩

/-- C7 (code bug): `normalize` is not idempotent.  The mangled line 182
replaces the 15-character literal `pStr` by `"`; on the input below the
first application rewrites the string to exactly `pStr`, and the second
application rewrites that to `"`. -/
theorem c7_not_idempotent :
    normalize (normalize ", ', '\"').replace(').replace(".toList) ≠
      normalize ", ', '\"').replace(').replace(".toList ∧
    normalize ", ', '\"').replace(').replace(".toList = pStr ∧
    normalize (normalize ", ', '\"').replace(').replace(".toList) = ['"'] := by
  refine ⟨by decide, by decide, by decide⟩

/-- Note `dropOneSpace` never lengthens a string. -/
lemma dropOneSpace_length_le (s : Str) : (dropOneSpace s).length ≤ s.length := by
  cases s with
  | nil => exact Nat.le_refl 0
  | cons c cs =>
    have h1 : dropOneSpace (c :: cs) = if isSpace c then cs else c :: cs := rfl
    rw [h1]
    by_cases h : isSpace c
    · rw [if_pos h, List.length_cons]
      exact Nat.le_succ _
    · rw [if_neg h]

/-- Note `dropWhile` never lengthens a string. -/
lemma dropWhile_length_le (p : Char → Bool) :
    ∀ s : Str, (s.dropWhile p).length ≤ s.length := by
  intro s
  induction s with
  | nil => exact Nat.le_refl 0
  | cons c cs ih =>
    rw [List.dropWhile_cons]
    by_cases h : p c
    · rw [if_pos h]; exact Nat.le_succ_of_le ih
    · rw [if_neg h]

/-- Inside a recognized control-word match, the scanner consumes the rest
of the `[a-z0-9]` run and one optional whitespace character, then resumes
normally. -/
lemma rtfSubGo_true_eq :
    ∀ cs : Str, rtfSubGo true cs = rtfSubGo false (dropOneSpace (cs.dropWhile isCW)) := by
  intro cs
  induction cs with
  | nil => rfl
  | cons c cs ih =>
    rw [List.dropWhile_cons]
    by_cases hcw : isCW c
    · rw [if_pos hcw]
      cases cs with
      | nil => simp [rtfSubGo, hcw, List.dropWhile, dropOneSpace]
      | cons d ds =>
        rw [show rtfSubGo true (c :: d :: ds) = rtfSubGo true (d :: ds) from by
          simp [rtfSubGo, hcw]]
        exact ih
    · rw [if_neg hcw]
      by_cases hsp : isSpace c
      · rw [show dropOneSpace (c :: cs) = cs from by simp [dropOneSpace, hsp]]
        cases cs <;> simp [rtfSubGo, hcw, hsp]
      · rw [show dropOneSpace (c :: cs) = c :: cs from by simp [dropOneSpace, hsp]]
        cases cs <;> simp [rtfSubGo, hcw, hsp]

/-- When no control-word match starts at `c`, the scanner copies `c`. -/
lemma rtfSubGo_false_cons_nomatch (c : Char) (cs : Str)
    (h : ¬(c = '\\' ∧ cs.takeWhile isCW ≠ [])) :
    rtfSubGo false (c :: cs) = c :: rtfSubGo false cs := by
  by_cases hc : c = '\\'
  · subst hc
    have ht : cs.takeWhile isCW = [] := by
      by_cases h2 : cs.takeWhile isCW = []
      · exact h2
      · exact absurd ⟨rfl, h2⟩ h
    cases cs with
    | nil => rfl
    | cons d ds =>
      have hd : isCW d = false := by
        rw [List.takeWhile_cons] at ht
        by_cases h3 : isCW d
        · rw [if_pos h3] at ht; exact absurd ht (by simp)
        · simpa using h3
      simp [rtfSubGo, hd]
  · cases cs <;> simp [rtfSubGo, hc]

/-- With enough fuel, the declarative amended substitution computes the
source's control-word substitution. -/
lemma amendedSubF_eq : ∀ (fuel : ℕ) (s : Str), s.length ≤ fuel →
    amendedSubF fuel s = rtfSubGo false s := by
  intro fuel
  induction fuel with
  | zero =>
    intro s hs
    have h0 : s = [] := List.length_eq_zero.mp (Nat.le_zero.mp hs)
    subst h0
    rfl
  | succ n ih =>
    intro s hs
    cases s with
    | nil => rfl
    | cons c cs =>
      by_cases hm : c = '\\' ∧ cs.takeWhile isCW ≠ []
      · obtain ⟨hc, ht⟩ := hm
        subst hc
        cases cs with
        | nil => exact absurd rfl ht
        | cons d ds =>
          have hd : isCW d = true := by
            rw [List.takeWhile_cons] at ht
            by_cases h3 : isCW d
            · exact h3
            · rw [if_neg h3] at ht; exact absurd rfl ht
          rw [show amendedSubF (n + 1) ('\\' :: d :: ds) =
              ' ' :: amendedSubF n (dropOneSpace ((d :: ds).dropWhile isCW)) from by
            rw [amendedSubF, if_pos ⟨rfl, ht⟩]]
          rw [show rtfSubGo false ('\\' :: d :: ds) = ' ' :: rtfSubGo true ds from by
            simp [rtfSubGo, hd]]
          rw [rtfSubGo_true_eq]
          rw [show (d :: ds).dropWhile isCW = ds.dropWhile isCW from by
            rw [List.dropWhile_cons, if_pos hd]]
          have hlen : (dropOneSpace (ds.dropWhile isCW)).length ≤ n := by
            have h1 := dropOneSpace_length_le (ds.dropWhile isCW)
            have h2 := dropWhile_length_le isCW ds
            have h3 : ds.length + 2 ≤ n + 1 := by simpa using hs
            omega
          rw [ih _ hlen]
      · rw [show amendedSubF (n + 1) (c :: cs) = c :: amendedSubF n cs from by
          rw [amendedSubF, if_neg hm]]
        rw [ih cs (by simpa using Nat.le_of_succ_le_succ (by simpa using hs))]
        exact (rtfSubGo_false_cons_nomatch c cs hm).symm

/-- C8 counterexample: the claim's own token description (backslash, one or
more lowercase LETTERS, optional digits, optional trailing space) does not
match the code.  On `"\0"` the code's regex `\\[a-z0-9]+\d*\s?` matches
`\0` and deletes it, while the claimed pipeline keeps it. -/
theorem c8_counterexample :
    extract_visible_text "\\0".toList ≠ claimedExtract "\\0".toList ∧
    extract_visible_text "\\0".toList = [] ∧
    claimedExtract "\\0".toList = "\\0".toList := by
  refine ⟨by decide, by decide, by decide⟩

/-- C8 amended: `extract_visible_text` replaces every token consisting of a
backslash followed by a non-empty maximal run of characters in `[a-z0-9]`,
optionally followed by one whitespace character, with a single space; then
replaces braces with spaces; then collapses whitespace and trims.  On the
claim's concrete example it yields exactly "Title Body text.". -/
theorem c8_amended :
    (∀ s : Str, extract_visible_text s =
      pyStrip (squeeze ((amendedSub s).map braceToSpace)))
    ∧ extract_visible_text "\x7b\\rtf1\\ansi\\b Title\\b0\\par Body text.\x7d".toList =
      "Title Body text.".toList := by
  refine ⟨fun s => ?_, by decide⟩
  unfold extract_visible_text amendedSub
  rw [amendedSubF_eq s.length s (Nat.le_refl _)]

end TR
